import Mathlib

/-!
Shallow embedding of the RVE job scheduler
(`drivers/video/rockchip/rve/rve_job.c`): job allocation, the priority
insertion of `rve_job_schedule`, the dispatch loop `rve_job_next`, the
completion accounting of `rve_internal_ctx_signal`, the asynchronous
timeout cleaner `rve_job_timeout_clean`, the synchronous wait path
`rve_job_wait` / `rve_running_job_abort`, the commit entry points, and a
lock-section-granularity step relation over the scheduler state.
Machine integers are modelled as `Int` (the C values involved stay far
from 32-bit overflow); kernel timestamps are modelled in milliseconds,
the unit the code compares with `ktime_to_ms`.
-/

namespace RVE

/-- Modelled from the spec: `RVE_SCHED_PRIORITY_DEFAULT` lives in the
header `rve_job.h`, which is not part of the sources; the value 0 is
forced by the code: `rve_job_alloc` leaves `job->priority` at the value
of the zeroed page whenever `ctx->priority <= 0`, and `rve_job_schedule`
treats `RVE_SCHED_PRIORITY_DEFAULT` as the unset priority. -/
def RVE_SCHED_PRIORITY_DEFAULT : Int := 0

/-- Modelled from the spec: `RVE_SCHED_PRIORITY_MAX` lives in the missing
header `rve_job.h`; the spec only says priorities are clamped to a
maximum. The value 6 (the bound used by the sibling Rockchip scheduler
headers) stands in for it; the theorems below do not depend on the value
beyond it being at least 1. -/
def RVE_SCHED_PRIORITY_MAX : Int := 6

/-- Modelled from the spec: `RVE_ASYNC_TIMEOUT_DELAY` (the fixed delay
bound, in milliseconds, for the asynchronous timeout cleaner) lives in
the missing header `rve_job.h`. The theorems are stated relative to the
constant, so its numeric value only feeds the concrete witnesses. -/
def RVE_ASYNC_TIMEOUT_DELAY : Int := 500

/-- One `struct rve_job` as the scheduler queue sees it: an identity, the
owning context id, the priority inherited from the context, the
`RVE_ASYNC` flag bit and the `hw_running_time` timestamp (ms). -/
structure RveJob where
  id : Nat
  ctx_id : Nat
  priority : Int
  is_async : Bool
  hw_running_time : Int
deriving DecidableEq, Repr

/-- The scheduler state protected by `scheduler->irq_lock`: the
`todo_list` pending queue, the single `running_job` slot and the
`job_count` counter. -/
structure SchedState where
  todo : List RveJob
  running_job : Option RveJob
  job_count : Int
deriving DecidableEq, Repr

/-- The `job_pos->priority++` performed on one queued entry during the
insertion scan of `rve_job_schedule`. -/
def bumpPriority (j : RveJob) : RveJob :=
  { j with priority := j.priority + 1 }

/-- Priority increment applied to a whole tail of the queue. -/
def bumpAll (l : List RveJob) : List RveJob :=
  l.map bumpPriority

/-- The `list_for_each_entry` scan of `rve_job_schedule` (lines 415-428).
At the first entry `job_pos` with `job->priority > job_pos->priority` the
code runs `list_add(&job->head, &job_pos->head)`, which links `job` in
immediately AFTER `job_pos`; in that same iteration `first_match` is set,
so `job_pos->priority++` fires, the following iteration lands on the
freshly inserted `job` itself and increments it, and every remaining
original entry is incremented in turn. When no entry matches the scan
leaves the queue untouched and returns `none` (the caller then appends at
the tail). -/
def insertScan (job : RveJob) : List RveJob → Option (List RveJob)
  | [] => none
  | pos :: rest =>
    if job.priority > pos.priority then
      some (bumpPriority pos :: bumpPriority job :: bumpAll rest)
    else
      (insertScan job rest).map (fun l => pos :: l)

/-- The queue update of `rve_job_schedule` (lines 411-432): an empty
queue or a default-priority job is appended at the tail; otherwise the
scan above runs, falling back to a tail append when no queued entry has
strictly lower priority. -/
def rve_job_schedule_queue (job : RveJob) (todo : List RveJob) : List RveJob :=
  if todo = [] ∨ job.priority = RVE_SCHED_PRIORITY_DEFAULT then
    todo ++ [job]
  else
    match insertScan job todo with
    | some l => l
    | none => todo ++ [job]

/-- The priority computation of `rve_job_alloc` (lines 100-105): the page
holding the job is zero-initialised, so the priority starts at 0; a
positive context priority is copied over, clamped to
`RVE_SCHED_PRIORITY_MAX`. -/
def rve_job_alloc_priority (ctx_priority : Int) : Int :=
  if ctx_priority > 0 then
    if ctx_priority > RVE_SCHED_PRIORITY_MAX then RVE_SCHED_PRIORITY_MAX
    else ctx_priority
  else 0

/-- The claim's reading of the insertion policy, written from the spec's
words for comparison with `rve_job_schedule_queue`: the new job is placed
immediately BEFORE the first queued entry of strictly lower priority,
every entry originally at or after that insertion point is incremented,
and the new job itself is not. -/
def claimInsertQueue (job : RveJob) (todo : List RveJob) : List RveJob :=
  if todo = [] ∨ job.priority = RVE_SCHED_PRIORITY_DEFAULT then
    todo ++ [job]
  else
    match todo.findIdx? (fun pos => pos.priority < job.priority) with
    | some i => todo.take i ++ job :: bumpAll (todo.drop i)
    | none => todo ++ [job]

/-- The `sync_mode` values `RVE_SYNC` / `RVE_ASYNC` from the interface
header. -/
inductive SyncMode where
  | sync
  | async
deriving DecidableEq, Repr

/-- The fields of `struct rve_internal_ctx_t` that the scheduler paths
touch: the batch count `cmd_num`, the counters `finished_job_count` and
`running_job_count`, the `is_running` flag, whether `ctx->out_fence` is
non-NULL, the requested `sync_mode`, the context priority, the input
fence fd and the last `out_fence_fd` handed out. `regcmd_data` is kept
only as a presence bit (the payload is opaque to the scheduler). -/
structure RveCtx where
  cmd_num : Int
  finished_job_count : Int
  running_job_count : Int
  is_running : Bool
  out_fence : Bool
  out_fence_fd : Int
  sync_mode : SyncMode
  priority : Int
  in_fence_fd : Int
  regcmd_data : Bool
deriving DecidableEq, Repr

/-- Result of one `rve_internal_ctx_signal` call: the updated context,
whether the `finished_job_count >= cmd_num` branch was taken, and whether
`dma_fence_signal` actually ran (it is guarded by `ctx->out_fence`, which
the same branch then clears). -/
structure SignalOut where
  ctx : RveCtx
  triggered : Bool
  fence_signaled : Bool
deriving DecidableEq, Repr

/-- `rve_internal_ctx_signal` (lines 156-205): increments
`finished_job_count` under the context lock; when the new count reaches
`cmd_num` it signals the output fence (if present), marks the job done,
wakes the waiters, clears `is_running` and drops the fence pointer. -/
def rve_internal_ctx_signal (ctx : RveCtx) : SignalOut :=
  let finished := ctx.finished_job_count + 1
  let ctx := { ctx with finished_job_count := finished }
  if finished ≥ ctx.cmd_num then
    { ctx := { ctx with is_running := false, out_fence := false },
      triggered := true,
      fence_signaled := ctx.out_fence }
  else
    { ctx := ctx, triggered := false, fence_signaled := false }

/-- The `next_job` loop of `rve_job_next` (lines 260-296) once the slot
has been observed empty: pop the queue head, decrement `job_count`,
install the head as `running_job` and run it; when `rve_job_run` fails
the slot is cleared again, the failing job's context is signalled
(collected in the returned list, in call order) and the loop retries on
the remaining queue. `runRet` is the outcome oracle for `rve_job_run`. -/
def jobNextLoop (runRet : RveJob → Int) : List RveJob → Int → SchedState × List RveJob
  | [], n => (⟨[], none, n⟩, [])
  | j :: rest, n =>
    if runRet j < 0 then
      let r := jobNextLoop runRet rest (n - 1)
      (r.1, j :: r.2)
    else
      (⟨rest, some j, n - 1⟩, [])

/-- `rve_job_next` (lines 255-296): under the irq lock, return at once
when the running slot is occupied or the queue is empty; otherwise enter
the pop-and-run loop. The second component lists the jobs whose contexts
were signalled through the failure path. -/
def rve_job_next (runRet : RveJob → Int) (s : SchedState) : SchedState × List RveJob :=
  match s.running_job with
  | some _ => (s, [])
  | none => jobNextLoop runRet s.todo s.job_count

/-- Result of `rve_job_timeout_clean`: the scheduler state, whether
`soft_reset` ran, and the job (if any) routed to
`rve_internal_ctx_signal`. -/
structure CleanOut where
  sched : SchedState
  soft_reset : Bool
  signaled : Option RveJob
deriving DecidableEq, Repr

/-- `rve_job_timeout_clean` (lines 365-390), with `now` in ms: when the
running job exists, carries the `RVE_ASYNC` flag and
`ktime_to_ms(now - hw_running_time)` has reached
`RVE_ASYNC_TIMEOUT_DELAY`, the slot is cleared under the lock, the
hardware is soft-reset and the job's context is signalled; otherwise
nothing changes. -/
def rve_job_timeout_clean (now : Int) (s : SchedState) : CleanOut :=
  match s.running_job with
  | some job =>
    if job.is_async = true ∧ now - job.hw_running_time ≥ RVE_ASYNC_TIMEOUT_DELAY then
      { sched := { s with running_job := none }, soft_reset := true, signaled := some job }
    else
      { sched := s, soft_reset := false, signaled := none }
  | none => { sched := s, soft_reset := false, signaled := none }

/-- Outcome of `wait_event_interruptible_timeout` in `rve_job_wait`:
the job's `RVE_JOB_DONE` flag became set in time, the sleep was
interrupted, or the `RVE_SYNC_TIMEOUT_DELAY` bound elapsed. -/
inductive WaitEvent where
  | jobDone
  | interrupted
  | timedOut
deriving DecidableEq, Repr

/-- `rve_job_wait` (lines 466-500): returns the errno handed to the
caller together with whether `scheduler->ops->soft_reset` ran. Timeout
(`left_time = 0`) soft-resets the hardware and returns `-EBUSY` (-16);
interruption returns `-ERESTARTSYS` (-512); completion returns 0. -/
def rve_job_wait (ev : WaitEvent) : Int × Bool :=
  match ev with
  | .timedOut => (-16, true)
  | .interrupted => (-512, false)
  | .jobDone => (0, false)

/-- Result of the synchronous wait tail of `rve_job_commit`: errno for
the caller, whether a soft reset ran, and the scheduler and context
states after the path completes. -/
structure SyncWaitOut where
  ret : Int
  soft_reset : Bool
  sched : SchedState
  ctx : RveCtx
deriving DecidableEq, Repr

/-- The synchronous tail of `rve_job_commit` (lines 870-874 and 883-885)
after the job was dispatched: `rve_job_wait` runs; a negative return
takes the `running_job_abort` label, where `rve_running_job_abort`
(lines 443-459) clears the running slot only when this job still occupies
it and then frees the job — neither `rve_internal_ctx_signal` nor
`rve_job_next` is called on that path. A non-negative return frees the
job via `rve_job_cleanup`. -/
def rve_commit_sync_wait (ev : WaitEvent) (job : RveJob) (s : SchedState)
    (ctx : RveCtx) : SyncWaitOut :=
  let w := rve_job_wait ev
  if w.1 < 0 then
    let s := if s.running_job = some job then { s with running_job := none } else s
    { ret := w.1, soft_reset := w.2, sched := s, ctx := ctx }
  else
    { ret := w.1, soft_reset := w.2, sched := s, ctx := ctx }

/-- External outcomes feeding one `rve_job_commit` call: whether
`rve_job_alloc` got its page, the return of `rve_out_fence_alloc`, the
fd `rve_out_fence_get_fd` would hand out, whether `rve_get_input_fence`
found the input fence, the `dma_fence_get_status` result, the return of
`rve_add_dma_fence_callback`, the job's `ret` as observed after
`rve_job_schedule` returns, and the wait outcome. -/
structure CommitEnv where
  alloc_ok : Bool
  fence_alloc_ret : Int
  fence_fd : Int
  in_fence_ok : Bool
  in_fence_status : Int
  callback_ret : Int
  job_ret : Int
  wait_ev : WaitEvent
deriving DecidableEq, Repr

/-- Observables of one `rve_job_commit` call: the returned errno, whether
the call blocked in `rve_job_wait`, whether this call assigned
`ctx->out_fence_fd` (the async branch does so via
`rve_out_fence_get_fd`), and the context afterwards. -/
structure CommitRes where
  ret : Int
  waited : Bool
  fence_fd_returned : Bool
  ctx : RveCtx
deriving DecidableEq, Repr

/-- The `RVE_ASYNC` branch of `rve_job_commit` (lines 777-851): reuse or
allocate the output fence (an allocation failure returns its errno), hand
the fd to the context, and either schedule at once, or wait on the input
fence via callback, mirroring the `dma_fence_get_status` cases. This
branch never calls `rve_job_wait`. It is dead code in this source: line
769 forces `ctx->sync_mode = RVE_SYNC` before the branch test. -/
def commitAsyncBranch (env : CommitEnv) (ctx : RveCtx) : CommitRes :=
  if ctx.out_fence = false ∧ env.fence_alloc_ret ≠ 0 then
    { ret := env.fence_alloc_ret, waited := false, fence_fd_returned := false, ctx := ctx }
  else
    let ctx := { ctx with out_fence := true, out_fence_fd := env.fence_fd }
    if ctx.in_fence_fd > 0 then
      if env.in_fence_ok = false then
        { ret := if ctx.out_fence then 0 else env.fence_alloc_ret,
          waited := false, fence_fd_returned := true, ctx := ctx }
      else if env.in_fence_status = 1 then
        { ret := 1, waited := false, fence_fd_returned := true, ctx := ctx }
      else if env.in_fence_status = 0 then
        { ret := if env.callback_ret < 0 then env.callback_ret else 0,
          waited := false, fence_fd_returned := true, ctx := ctx }
      else
        { ret := env.in_fence_status, waited := false, fence_fd_returned := true, ctx := ctx }
    else
      { ret := 0, waited := false, fence_fd_returned := true, ctx := ctx }

/-- The `RVE_SYNC` branch of `rve_job_commit` (lines 854-875): schedule
the job, propagate a negative `job->ret` through `running_job_abort`
without waiting, otherwise block in `rve_job_wait` and propagate its
result. -/
def commitSyncBranch (env : CommitEnv) (ctx : RveCtx) : CommitRes :=
  if env.job_ret < 0 then
    { ret := env.job_ret, waited := false, fence_fd_returned := false, ctx := ctx }
  else
    let w := rve_job_wait env.wait_ev
    { ret := w.1, waited := true, fence_fd_returned := false, ctx := ctx }

/-- `rve_job_commit` (lines 759-886): line 769 (`TODO: remove`) forces
`ctx->sync_mode = RVE_SYNC` before anything else; a failed job
allocation returns `-ENOMEM` (-12); then the branch on `ctx->sync_mode`
selects the async path (dead) or the sync path. -/
def rve_job_commit_model (env : CommitEnv) (ctx : RveCtx) : CommitRes :=
  let ctx := { ctx with sync_mode := SyncMode.sync }
  if env.alloc_ok = false then
    { ret := -12, waited := false, fence_fd_returned := false, ctx := ctx }
  else if ctx.sync_mode = SyncMode.async then
    commitAsyncBranch env ctx
  else if ctx.sync_mode = SyncMode.sync then
    commitSyncBranch env ctx
  else
    { ret := 0, waited := false, fence_fd_returned := false, ctx := ctx }

/-- The user-visible `struct rve_user_ctx_t` fields the config/commit
entry points read and write. -/
structure UserCtx where
  id : Nat
  cmd_num : Int
  sync_mode : SyncMode
  priority : Int
  in_fence_fd : Int
  out_fence_fd : Int
deriving DecidableEq, Repr

/-- `rve_job_config_by_user_ctx` (lines 568-625): failed lookup returns
`-EINVAL` (-22); a running context refuses reconfiguration with
`-EFAULT` (-14); a failed `regcmd_data` allocation returns `-ENOMEM`
(-12); then line 601 overwrites `user_ctx->cmd_num = 1` before the copy
from user space (whose failure returns `-EFAULT`), and on success the
context stores the user's sync mode, the forced `cmd_num`, the payload,
the priority and the input fence fd. -/
def rve_job_config_by_user_ctx (lookup_ok : Bool) (alloc_ok : Bool) (copy_ok : Bool)
    (user : UserCtx) (ctx : RveCtx) : Except Int (RveCtx × UserCtx) :=
  if lookup_ok = false then .error (-22)
  else if ctx.is_running = true then .error (-14)
  else if alloc_ok = false then .error (-12)
  else
    let user := { user with cmd_num := 1 }
    if copy_ok = false then .error (-14)
    else .ok ({ ctx with
                sync_mode := user.sync_mode, cmd_num := user.cmd_num,
                regcmd_data := true, priority := user.priority,
                in_fence_fd := user.in_fence_fd }, user)

/-- The commit loop of `rve_job_commit_by_user_ctx` (lines 658-666),
iterating `i` from `i0` for `n` rounds: each round calls
`rve_job_commit`; a negative return stops the loop after that call.
Returns the number of `rve_job_commit` calls made and whether all of
them succeeded. -/
def commitLoop (commitRet : Nat → Int) : Nat → Nat → Nat × Bool
  | _, 0 => (0, true)
  | i0, n + 1 =>
    if commitRet i0 < 0 then (1, false)
    else
      let r := commitLoop commitRet (i0 + 1) n
      (r.1 + 1, r.2)

/-- Result of `rve_job_commit_by_user_ctx`: errno, the context, the
number of `rve_job_commit` calls made and the number of
`rve_cmd_reg_array_t` entries copied back to user space. -/
structure CommitByUserOut where
  ret : Int
  ctx : RveCtx
  commit_calls : Nat
  arrays_copied : Int
deriving DecidableEq, Repr

/-- `rve_job_commit_by_user_ctx` (lines 627-678): failed lookup returns
`-EINVAL`; a running context returns `-EFAULT`; otherwise the counters
are reset, `is_running` is set, `rve_job_commit` runs once per
`ctx->cmd_num` (stopping with `-EFAULT` at the first failure), and the
final `copy_to_user` moves `sizeof(rve_cmd_reg_array_t) * ctx->cmd_num`
bytes back (its failure also returns `-EFAULT`). -/
def rve_job_commit_by_user_ctx (lookup_ok : Bool) (copy_ok : Bool)
    (commitRet : Nat → Int) (ctx : RveCtx) : CommitByUserOut :=
  if lookup_ok = false then
    { ret := -22, ctx := ctx, commit_calls := 0, arrays_copied := 0 }
  else if ctx.is_running = true then
    { ret := -14, ctx := ctx, commit_calls := 0, arrays_copied := 0 }
  else
    let ctx := { ctx with
                 finished_job_count := 0, running_job_count := 0,
                 is_running := true }
    let loop := commitLoop commitRet 0 ctx.cmd_num.toNat
    if loop.2 = false then
      { ret := -14, ctx := { ctx with running_job_count := (loop.1 : Int) - 1 },
        commit_calls := loop.1, arrays_copied := 0 }
    else
      let ctx := { ctx with running_job_count := (loop.1 : Int) }
      if copy_ok = false then
        { ret := -14, ctx := ctx, commit_calls := loop.1, arrays_copied := ctx.cmd_num }
      else
        { ret := 0, ctx := ctx, commit_calls := loop.1, arrays_copied := ctx.cmd_num }

/-- Clearing of the running slot in `rve_internal_ctx_kref_release`
(lines 714-722): the slot is dropped only when the running job belongs to
the cancelled context. -/
def cancelRunning (cid : Nat) : Option RveJob → Option RveJob
  | some j => if j.ctx_id = cid then none else some j
  | none => none

/-- One lock-protected critical section of the scheduler, as a step
relation on `SchedState`. Each constructor mirrors one
`spin_lock_irqsave(&scheduler->irq_lock)` section of `rve_job.c`:

* `enqueue` — the insertion section of `rve_job_schedule` (408-436);
* `install` — `rve_job_next` popping the head into the empty slot
  (261-277), the only constructor that fills the slot;
* `runFail` — `rve_job_next` clearing the slot after `rve_job_run`
  failed (286-290);
* `doneStep` — `rve_job_done` taking the running job out (332-339);
* `timeoutStep` — `rve_job_timeout_clean` dropping an expired
  asynchronous running job (371-378);
* `abortClear` / `abortMiss` — `rve_running_job_abort` (450-456);
* `cancelCtx` — `rve_internal_ctx_kref_release` draining the context's
  queued jobs and its running job (702-724). -/
inductive SchedStep : SchedState → SchedState → Prop where
  | enqueue (s : SchedState) (j : RveJob) :
      SchedStep s ⟨rve_job_schedule_queue j s.todo, s.running_job, s.job_count + 1⟩
  | install (s : SchedState) (j : RveJob) (rest : List RveJob)
      (hidle : s.running_job = none) (hhead : s.todo = j :: rest) :
      SchedStep s ⟨rest, some j, s.job_count - 1⟩
  | runFail (s : SchedState) (j : RveJob) (hrun : s.running_job = some j) :
      SchedStep s ⟨s.todo, none, s.job_count⟩
  | doneStep (s : SchedState) (j : RveJob) (hrun : s.running_job = some j) :
      SchedStep s ⟨s.todo, none, s.job_count⟩
  | timeoutStep (s : SchedState) (j : RveJob) (now : Int)
      (hrun : s.running_job = some j) (hasync : j.is_async = true)
      (hlate : now - j.hw_running_time ≥ RVE_ASYNC_TIMEOUT_DELAY) :
      SchedStep s ⟨s.todo, none, s.job_count⟩
  | abortClear (s : SchedState) (j : RveJob) (hrun : s.running_job = some j) :
      SchedStep s ⟨s.todo, none, s.job_count⟩
  | abortMiss (s : SchedState) (j : RveJob) (hmiss : s.running_job ≠ some j) :
      SchedStep s s
  | cancelCtx (s : SchedState) (cid : Nat) :
      SchedStep s ⟨s.todo.filter (fun q => q.ctx_id != cid),
        cancelRunning cid s.running_job,
        s.job_count - ((s.todo.filter (fun q => q.ctx_id == cid)).length : Int)⟩

/-- C5: when the running slot is occupied or the pending queue is empty,
`rve_job_next` is a no-op: the queue, the `job_count` counter and the
running slot are returned unchanged and no context is signalled, so
speculative calls are safe and idempotent in those states. -/
theorem rve_job_next_noop (runRet : RveJob → Int) (s : SchedState)
    (h : s.running_job ≠ none ∨ s.todo = []) :
    rve_job_next runRet s = (s, []) := by
  cases s with
  | mk todo run cnt =>
    cases hr : run with
    | some j => simp [rve_job_next, hr]
    | none =>
      rcases h with h | h
      · exact absurd hr h
      · simp only at h
        subst h
        simp [rve_job_next, jobNextLoop]

/-- Witness for C5 at a concrete state: an empty queue with an idle slot
is left untouched. -/
theorem rve_job_next_noop_witness :
    rve_job_next (fun _ => 0) ⟨[], none, 0⟩ = (⟨[], none, 0⟩, []) :=
  rve_job_next_noop (fun _ => 0) ⟨[], none, 0⟩ (Or.inr rfl)

/-- C3: while the context still has unfinished batches, one
`rve_internal_ctx_signal` call increments `finished_job_count` by exactly
1, the count never exceeds `cmd_num`, the completion branch fires exactly
when the count reaches `cmd_num`, the output fence is signalled exactly
at that trigger (when present, and the fence pointer is dropped so it
cannot be signalled twice), and `is_running` is cleared exactly at that
trigger. -/
theorem ctx_signal_accounting (ctx : RveCtx)
    (h : ctx.finished_job_count < ctx.cmd_num) :
    (rve_internal_ctx_signal ctx).ctx.finished_job_count =
        ctx.finished_job_count + 1 ∧
    (rve_internal_ctx_signal ctx).ctx.finished_job_count ≤ ctx.cmd_num ∧
    ((rve_internal_ctx_signal ctx).triggered = true ↔
        ctx.finished_job_count + 1 = ctx.cmd_num) ∧
    ((rve_internal_ctx_signal ctx).fence_signaled = true ↔
        ctx.finished_job_count + 1 = ctx.cmd_num ∧ ctx.out_fence = true) ∧
    ((rve_internal_ctx_signal ctx).triggered = true →
        (rve_internal_ctx_signal ctx).ctx.is_running = false ∧
        (rve_internal_ctx_signal ctx).ctx.out_fence = false) ∧
    ((rve_internal_ctx_signal ctx).triggered = false →
        (rve_internal_ctx_signal ctx).ctx.is_running = ctx.is_running) := by
  by_cases hc : ctx.finished_job_count + 1 ≥ ctx.cmd_num
  · have he : ctx.finished_job_count + 1 = ctx.cmd_num := by omega
    simp [rve_internal_ctx_signal, hc, he]
  · have hne : ¬ ctx.finished_job_count + 1 = ctx.cmd_num := by omega
    simp [rve_internal_ctx_signal, hc, hne]
    omega

/-- Witness for C3 at a concrete context: two batches, one already
finished, output fence present — the call increments the count to 2 and
trips the completion branch. -/
theorem ctx_signal_accounting_witness :
    (rve_internal_ctx_signal ⟨2, 1, 1, true, true, 3, .async, 0, 0, true⟩).ctx.finished_job_count = 2 ∧
    (rve_internal_ctx_signal ⟨2, 1, 1, true, true, 3, .async, 0, 0, true⟩).triggered = true := by
  have h := ctx_signal_accounting ⟨2, 1, 1, true, true, 3, .async, 0, 0, true⟩ (by decide)
  exact ⟨by simpa using h.1, h.2.2.1.mpr (by decide)⟩

/-- C9: for a running asynchronous job whose elapsed time since
`hw_running_time` has reached the `RVE_ASYNC_TIMEOUT_DELAY` bound, the
cleaner clears the running slot (leaving the queue intact), soft-resets
the hardware and routes the job to the context-signalling finish path;
a running synchronous job is never touched by the cleaner. -/
theorem timeout_clean_spec (now : Int) (s : SchedState) (j : RveJob)
    (hrun : s.running_job = some j) :
    (j.is_async = true → RVE_ASYNC_TIMEOUT_DELAY ≤ now - j.hw_running_time →
        rve_job_timeout_clean now s =
          ⟨⟨s.todo, none, s.job_count⟩, true, some j⟩) ∧
    (j.is_async = false → rve_job_timeout_clean now s = ⟨s, false, none⟩) := by
  cases s with
  | mk todo run cnt =>
    simp only at hrun
    subst hrun
    constructor
    · intro ha hl
      simp [rve_job_timeout_clean, ha, hl]
    · intro ha
      simp [rve_job_timeout_clean, ha]

/-- Witness for C9 at a concrete state: an asynchronous running job whose
start timestamp lies a full delay bound in the past is reaped — slot
cleared, hardware reset, job routed to the signalling path. -/
theorem timeout_clean_spec_witness :
    rve_job_timeout_clean 1000 ⟨[], some ⟨9, 1, 0, true, 100⟩, 0⟩ =
      ⟨⟨[], none, 0⟩, true, some ⟨9, 1, 0, true, 100⟩⟩ := by
  have h := timeout_clean_spec 1000 ⟨[], some ⟨9, 1, 0, true, 100⟩, 0⟩
    ⟨9, 1, 0, true, 100⟩ rfl
  simpa using h.1 rfl (by decide)

/-- Helper invariant of the dispatch loop: any job installed in the slot
came from the queue and had a non-negative `rve_job_run` result, an empty
slot at exit means the whole queue was consumed, and every job reported
to the signalling path had a negative result. -/
theorem jobNextLoop_spec (runRet : RveJob → Int) (todo : List RveJob) (n : Int) :
    (∀ k, (jobNextLoop runRet todo n).1.running_job = some k →
        0 ≤ runRet k ∧ k ∈ todo) ∧
    ((jobNextLoop runRet todo n).1.running_job = none →
        (jobNextLoop runRet todo n).1.todo = []) ∧
    (∀ k ∈ (jobNextLoop runRet todo n).2, runRet k < 0) := by
  induction todo generalizing n with
  | nil =>
    refine ⟨?_, ?_, ?_⟩
    · intro k hk; simp [jobNextLoop] at hk
    · intro _; simp [jobNextLoop]
    · intro k hk; simp [jobNextLoop] at hk
  | cons j rest ih =>
    by_cases hf : runRet j < 0
    · obtain ⟨ih1, ih2, ih3⟩ := ih (n - 1)
      refine ⟨?_, ?_, ?_⟩
      · intro k hk
        simp only [jobNextLoop, if_pos hf] at hk
        obtain ⟨h0, h1⟩ := ih1 k hk
        exact ⟨h0, by simp [h1]⟩
      · intro hk
        simp only [jobNextLoop, if_pos hf] at hk ⊢
        exact ih2 hk
      · intro k hk
        simp only [jobNextLoop, if_pos hf, List.mem_cons] at hk
        rcases hk with hk | hk
        · subst hk; exact hf
        · exact ih3 k hk
    · refine ⟨?_, ?_, ?_⟩
      · intro k hk
        simp only [jobNextLoop, if_neg hf] at hk
        cases hk
        exact ⟨le_of_not_lt hf, by simp⟩
      · intro hk
        simp [jobNextLoop, if_neg hf] at hk
      · intro k hk
        simp [jobNextLoop, if_neg hf] at hk

/-- C4: when the queue head's hardware setup fails (`rve_job_run`
negative), `rve_job_next` clears the running slot, signals the failing
job's context (it heads the signalled list) and immediately retries the
dispatch on the remaining queue; consequently the slot is never left
holding a failed job and an idle slot at exit implies the queue was fully
drained — no setup failure stalls the queue. -/
theorem job_next_failure_recovery (runRet : RveJob → Int) (s : SchedState)
    (j : RveJob) (rest : List RveJob)
    (hidle : s.running_job = none) (hhead : s.todo = j :: rest)
    (hfail : runRet j < 0) :
    rve_job_next runRet s =
      ((rve_job_next runRet ⟨rest, none, s.job_count - 1⟩).1,
        j :: (rve_job_next runRet ⟨rest, none, s.job_count - 1⟩).2) ∧
    (∀ k, (rve_job_next runRet s).1.running_job = some k → 0 ≤ runRet k) ∧
    ((rve_job_next runRet s).1.running_job = none →
        (rve_job_next runRet s).1.todo = []) := by
  cases s with
  | mk todo run cnt =>
    simp only at hidle hhead
    subst hidle; subst hhead
    have hspec := jobNextLoop_spec runRet (j :: rest) cnt
    refine ⟨?_, ?_, ?_⟩
    · simp [rve_job_next, jobNextLoop, if_pos hfail]
    · intro k hk
      exact (hspec.1 k hk).1
    · exact hspec.2.1

/-- Witness for C4 at a concrete input: a two-job queue whose head fails
to start; the head is signalled, dispatch retries at once and installs
the second job. -/
theorem job_next_failure_recovery_witness :
    rve_job_next (fun q => if q.id = 0 then -1 else 0)
        ⟨[⟨0, 0, 3, false, 0⟩, ⟨1, 0, 5, false, 0⟩], none, 2⟩ =
      ((rve_job_next (fun q => if q.id = 0 then -1 else 0)
          ⟨[⟨1, 0, 5, false, 0⟩], none, 1⟩).1,
        ⟨0, 0, 3, false, 0⟩ :: (rve_job_next (fun q => if q.id = 0 then -1 else 0)
          ⟨[⟨1, 0, 5, false, 0⟩], none, 1⟩).2) := by
  have h := job_next_failure_recovery (fun q => if q.id = 0 then -1 else 0)
    ⟨[⟨0, 0, 3, false, 0⟩, ⟨1, 0, 5, false, 0⟩], none, 2⟩
    ⟨0, 0, 3, false, 0⟩ [⟨1, 0, 5, false, 0⟩] rfl rfl (by decide)
  simpa using h.1

/-- When no queued entry has strictly lower priority than the new job,
the insertion scan matches nothing. -/
theorem insertScan_eq_none (job : RveJob) (todo : List RveJob)
    (h : ∀ q ∈ todo, ¬ job.priority > q.priority) :
    insertScan job todo = none := by
  induction todo with
  | nil => rfl
  | cons pos rest ih =>
    have h1 : ¬ job.priority > pos.priority := h pos (by simp)
    have h2 : insertScan job rest = none :=
      ih (fun q hq => h q (by simp [hq]))
    simp [insertScan, h1, h2]

/-- When the scan's first strictly-lower entry is `pos`, the new job is
linked in immediately after `pos`, and `pos`, the new job itself and
every entry after them are each incremented by one; entries before `pos`
are untouched. -/
theorem insertScan_match (job pos : RveJob) (before after : List RveJob)
    (hb : ∀ q ∈ before, ¬ job.priority > q.priority)
    (hp : job.priority > pos.priority) :
    insertScan job (before ++ pos :: after) =
      some (before ++ bumpPriority pos :: bumpPriority job :: bumpAll after) := by
  induction before with
  | nil => simp [insertScan, hp]
  | cons q qs ih =>
    have h1 : ¬ job.priority > q.priority := hb q (by simp)
    have h2 := ih (fun r hr => hb r (by simp [hr]))
    simp [insertScan, h1, h2]

/-- C2 counterexample: queue holding one entry of priority 3, new job of
priority 5. The claim places the new job first, at its own priority 5,
over the bumped old entry; the code (`list_add` inserts AFTER the matched
entry, and the scan then walks onto the freshly linked job and bumps it
too) leaves the old entry first and inflates the new job to 6. The two
policies disagree at this input. -/
theorem schedule_insert_counterexample :
    rve_job_schedule_queue ⟨1, 0, 5, false, 0⟩ [⟨0, 0, 3, false, 0⟩] =
      [⟨0, 0, 4, false, 0⟩, ⟨1, 0, 6, false, 0⟩] ∧
    claimInsertQueue ⟨1, 0, 5, false, 0⟩ [⟨0, 0, 3, false, 0⟩] =
      [⟨1, 0, 5, false, 0⟩, ⟨0, 0, 4, false, 0⟩] ∧
    rve_job_schedule_queue ⟨1, 0, 5, false, 0⟩ [⟨0, 0, 3, false, 0⟩] ≠
      claimInsertQueue ⟨1, 0, 5, false, 0⟩ [⟨0, 0, 3, false, 0⟩] := by
  decide

/-- C2 amended: a job arriving at an empty queue or carrying the default
priority is appended at the tail unchanged; otherwise, when no queued
entry has strictly lower priority the job is also appended at the tail
with no priority changes; and when the first strictly-lower entry is
`pos`, the job is inserted immediately AFTER `pos`, and `pos`, the newly
inserted job itself and every entry originally after `pos` each have
their priority incremented by exactly one, while entries before `pos` are
unchanged. -/
theorem schedule_insert_characterization (job pos : RveJob)
    (before after todo : List RveJob) :
    ((todo = [] ∨ job.priority = RVE_SCHED_PRIORITY_DEFAULT) →
        rve_job_schedule_queue job todo = todo ++ [job]) ∧
    (job.priority ≠ RVE_SCHED_PRIORITY_DEFAULT →
      (∀ q ∈ todo, ¬ job.priority > q.priority) →
        rve_job_schedule_queue job todo = todo ++ [job]) ∧
    (job.priority ≠ RVE_SCHED_PRIORITY_DEFAULT →
      (∀ q ∈ before, ¬ job.priority > q.priority) →
      job.priority > pos.priority →
        rve_job_schedule_queue job (before ++ pos :: after) =
          before ++ bumpPriority pos :: bumpPriority job :: bumpAll after) := by
  refine ⟨?_, ?_, ?_⟩
  · intro h
    rcases h with h | h <;> simp [rve_job_schedule_queue, h]
  · intro hne hnomatch
    by_cases he : todo = []
    · simp [rve_job_schedule_queue, he]
    · simp [rve_job_schedule_queue, he, hne, insertScan_eq_none job todo hnomatch]
  · intro hne hb hp
    have hm := insertScan_match job pos before after hb hp
    have he : ¬ before ++ pos :: after = [] := by simp
    simp [rve_job_schedule_queue, he, hne, hm]

/-- Witness for C2 amended at concrete inputs: inserting a priority-5 job
into the queue [prio 6, prio 3, prio 2] matches at the second entry; the
result keeps the leading prio-6 entry, bumps the matched entry to 4,
carries the new job (bumped to 6) right after it and bumps the tail entry
to 3. -/
theorem schedule_insert_characterization_witness :
    rve_job_schedule_queue ⟨9, 0, 5, false, 0⟩
        ([⟨0, 0, 6, false, 0⟩] ++ ⟨1, 0, 3, false, 0⟩ :: [⟨2, 0, 2, false, 0⟩]) =
      [⟨0, 0, 6, false, 0⟩] ++ bumpPriority ⟨1, 0, 3, false, 0⟩ ::
        bumpPriority ⟨9, 0, 5, false, 0⟩ :: bumpAll [⟨2, 0, 2, false, 0⟩] := by
  have h := schedule_insert_characterization ⟨9, 0, 5, false, 0⟩ ⟨1, 0, 3, false, 0⟩
    [⟨0, 0, 6, false, 0⟩] [⟨2, 0, 2, false, 0⟩] []
  exact h.2.2 (by decide) (by decide) (by decide)

/-- C8 counterexample: the queue holds entries of priority 1 and
priority `RVE_SCHED_PRIORITY_MAX`; a job whose context asked for
priority above the maximum is clamped to `RVE_SCHED_PRIORITY_MAX` at
allocation, yet scheduling it matches the priority-1 entry and the
inflation pass then pushes both the new job and the old maximal entry to
`RVE_SCHED_PRIORITY_MAX + 1` — the increment does not saturate at the
maximum. -/
theorem priority_saturation_counterexample :
    rve_job_alloc_priority (RVE_SCHED_PRIORITY_MAX + 3) = RVE_SCHED_PRIORITY_MAX ∧
    rve_job_schedule_queue
        ⟨2, 0, rve_job_alloc_priority (RVE_SCHED_PRIORITY_MAX + 3), false, 0⟩
        [⟨0, 0, 1, false, 0⟩, ⟨1, 0, RVE_SCHED_PRIORITY_MAX, false, 0⟩] =
      [⟨0, 0, 2, false, 0⟩, ⟨2, 0, RVE_SCHED_PRIORITY_MAX + 1, false, 0⟩,
        ⟨1, 0, RVE_SCHED_PRIORITY_MAX + 1, false, 0⟩] ∧
    RVE_SCHED_PRIORITY_MAX < RVE_SCHED_PRIORITY_MAX + 1 := by
  decide

/-- C8 amended: the priority a job inherits from its context is clamped
into `[0, RVE_SCHED_PRIORITY_MAX]` at allocation, but the inflation pass
of `rve_job_schedule` adds exactly one to the matched entry, to the newly
inserted job and to every later entry, with no saturation at the maximum:
queued priorities can grow past `RVE_SCHED_PRIORITY_MAX`. -/
theorem priority_clamp_no_saturation (ctx_priority : Int) (job pos : RveJob)
    (rest : List RveJob) :
    (0 ≤ rve_job_alloc_priority ctx_priority ∧
     rve_job_alloc_priority ctx_priority ≤ RVE_SCHED_PRIORITY_MAX) ∧
    (job.priority > pos.priority →
        insertScan job (pos :: rest) =
          some (bumpPriority pos :: bumpPriority job :: bumpAll rest)) ∧
    (∀ q : RveJob, (bumpPriority q).priority = q.priority + 1) := by
  refine ⟨?_, ?_, fun q => rfl⟩
  · unfold rve_job_alloc_priority RVE_SCHED_PRIORITY_MAX
    split <;> [skip; omega]
    split <;> omega
  · intro hp
    simpa using insertScan_match job pos [] rest (by simp) hp

/-- Witness for C8 amended at concrete inputs: a context priority of 9 is
clamped to the maximum, and inserting that job over a priority-1 entry
bumps the entry to 2 with no cap applied. -/
theorem priority_clamp_no_saturation_witness :
    (0 ≤ rve_job_alloc_priority 9 ∧
     rve_job_alloc_priority 9 ≤ RVE_SCHED_PRIORITY_MAX) ∧
    insertScan ⟨2, 0, 6, false, 0⟩ [⟨0, 0, 1, false, 0⟩] =
      some [bumpPriority ⟨0, 0, 1, false, 0⟩, bumpPriority ⟨2, 0, 6, false, 0⟩] := by
  have h := priority_clamp_no_saturation 9 ⟨2, 0, 6, false, 0⟩ ⟨0, 0, 1, false, 0⟩ []
  refine ⟨h.1, ?_⟩
  simpa [bumpAll] using h.2.1 (by decide)

/-- C6 counterexample: a synchronous job whose wait times out, while a
second job sits in the pending queue. The code soft-resets and returns
`-EBUSY`, and `rve_running_job_abort` clears the slot — but the owning
context's `finished_job_count` stays 0 (no `rve_internal_ctx_signal`
call) and the queued job is still pending with the slot idle (no
`rve_job_next` call), contradicting the claim that the job is finalized
through the finish path with the Context signalled and the next queued
job dispatched. -/
theorem sync_timeout_counterexample :
    (rve_commit_sync_wait .timedOut ⟨0, 0, 0, false, 0⟩
        ⟨[⟨1, 0, 0, false, 0⟩], some ⟨0, 0, 0, false, 0⟩, 1⟩
        ⟨1, 0, 1, true, false, 0, .sync, 0, 0, true⟩).ret = -16 ∧
    (rve_commit_sync_wait .timedOut ⟨0, 0, 0, false, 0⟩
        ⟨[⟨1, 0, 0, false, 0⟩], some ⟨0, 0, 0, false, 0⟩, 1⟩
        ⟨1, 0, 1, true, false, 0, .sync, 0, 0, true⟩).soft_reset = true ∧
    (rve_commit_sync_wait .timedOut ⟨0, 0, 0, false, 0⟩
        ⟨[⟨1, 0, 0, false, 0⟩], some ⟨0, 0, 0, false, 0⟩, 1⟩
        ⟨1, 0, 1, true, false, 0, .sync, 0, 0, true⟩).ctx.finished_job_count = 0 ∧
    (rve_commit_sync_wait .timedOut ⟨0, 0, 0, false, 0⟩
        ⟨[⟨1, 0, 0, false, 0⟩], some ⟨0, 0, 0, false, 0⟩, 1⟩
        ⟨1, 0, 1, true, false, 0, .sync, 0, 0, true⟩).ctx.is_running = true ∧
    (rve_commit_sync_wait .timedOut ⟨0, 0, 0, false, 0⟩
        ⟨[⟨1, 0, 0, false, 0⟩], some ⟨0, 0, 0, false, 0⟩, 1⟩
        ⟨1, 0, 1, true, false, 0, .sync, 0, 0, true⟩).sched =
      ⟨[⟨1, 0, 0, false, 0⟩], none, 1⟩ := by
  decide

/-- C6 amended: for a synchronous job, `rve_job_wait` blocks until the
job's done flag is set or the `RVE_SYNC_TIMEOUT_DELAY` bound elapses; on
timeout it soft-resets the hardware and reports `-EBUSY` to the caller,
and the commit path aborts the job through `rve_running_job_abort`,
which clears the running slot (when the job still occupies it) and frees
the job — without signalling the Context and without dispatching the
next queued job on this path. -/
theorem sync_timeout_behavior (job : RveJob) (s : SchedState) (ctx : RveCtx)
    (hrun : s.running_job = some job) :
    rve_commit_sync_wait .timedOut job s ctx =
      ⟨-16, true, ⟨s.todo, none, s.job_count⟩, ctx⟩ := by
  cases s with
  | mk todo run cnt =>
    simp only at hrun
    subst hrun
    simp [rve_commit_sync_wait, rve_job_wait]

/-- Witness for C6 amended at a concrete input: the timed-out running job
is cleared from the slot, the reset flag is up, `-EBUSY` is returned and
both the queue and the context are left as they were. -/
theorem sync_timeout_behavior_witness :
    rve_commit_sync_wait .timedOut ⟨0, 0, 0, false, 0⟩
        ⟨[⟨1, 0, 0, false, 0⟩], some ⟨0, 0, 0, false, 0⟩, 1⟩
        ⟨1, 0, 1, true, false, 0, .sync, 0, 0, true⟩ =
      ⟨-16, true, ⟨[⟨1, 0, 0, false, 0⟩], none, 1⟩,
        ⟨1, 0, 1, true, false, 0, .sync, 0, 0, true⟩⟩ := by
  have h := sync_timeout_behavior ⟨0, 0, 0, false, 0⟩
    ⟨[⟨1, 0, 0, false, 0⟩], some ⟨0, 0, 0, false, 0⟩, 1⟩
    ⟨1, 0, 1, true, false, 0, .sync, 0, 0, true⟩ rfl
  simpa using h

/-- When every `rve_job_commit` call succeeds, the commit loop performs
one call per configured batch and reports success. -/
theorem commitLoop_all_ok (commitRet : Nat → Int)
    (h : ∀ i, 0 ≤ commitRet i) :
    ∀ (n i0 : Nat), commitLoop commitRet i0 n = (n, true) := by
  intro n
  induction n with
  | zero => intro i0; rfl
  | succ k ih =>
    intro i0
    have hf : ¬ commitRet i0 < 0 := not_lt.mpr (h i0)
    simp [commitLoop, hf, ih (i0 + 1)]

/-- C7 counterexample: a context configured asynchronous, with an
environment in which the output fence allocation would succeed. The
claim promises an immediate return carrying the fence fd; the code
(line 769 forces `ctx->sync_mode = RVE_SYNC`) instead blocks in
`rve_job_wait` and never assigns `ctx->out_fence_fd`. -/
theorem commit_async_mode_counterexample :
    (rve_job_commit_model ⟨true, 0, 5, true, 1, 0, 0, .jobDone⟩
        ⟨1, 0, 0, false, false, 0, .async, 0, 0, true⟩).waited = true ∧
    (rve_job_commit_model ⟨true, 0, 5, true, 1, 0, 0, .jobDone⟩
        ⟨1, 0, 0, false, false, 0, .async, 0, 0, true⟩).fence_fd_returned = false ∧
    (rve_job_commit_model ⟨true, 0, 5, true, 1, 0, 0, .jobDone⟩
        ⟨1, 0, 0, false, false, 0, .async, 0, 0, true⟩).ctx.sync_mode =
      SyncMode.sync := by
  decide

/-- C7 amended: `rve_job_commit` overrides the configured mode with
`RVE_SYNC` before branching, so every commit takes the synchronous
branch: the asynchronous fence-returning path is unreachable, no call
assigns an output fence fd, and the call blocks in `rve_job_wait`
exactly when the job allocation and the hardware dispatch succeeded;
`rve_job_commit_by_user_ctx` still executes all configured batches —
one `rve_job_commit` call per `ctx->cmd_num` when they all succeed. -/
theorem commit_forces_sync (env : CommitEnv) (ctx : RveCtx) :
    rve_job_commit_model env ctx =
      (if env.alloc_ok = false then
        ⟨-12, false, false, { ctx with sync_mode := SyncMode.sync }⟩
       else commitSyncBranch env { ctx with sync_mode := SyncMode.sync }) ∧
    (rve_job_commit_model env ctx).fence_fd_returned = false ∧
    ((rve_job_commit_model env ctx).waited = true ↔
        env.alloc_ok = true ∧ 0 ≤ env.job_ret) ∧
    (∀ (copy_ok : Bool) (c : RveCtx) (commitRet : Nat → Int),
        c.is_running = false → (∀ i, 0 ≤ commitRet i) →
        (rve_job_commit_by_user_ctx true copy_ok commitRet c).commit_calls =
          c.cmd_num.toNat) := by
  refine ⟨?_, ?_, ?_, ?_⟩
  · cases ha : env.alloc_ok <;> simp [rve_job_commit_model, ha]
  · cases ha : env.alloc_ok <;>
      by_cases hj : env.job_ret < 0 <;>
      simp [rve_job_commit_model, commitSyncBranch, ha, hj]
  · cases ha : env.alloc_ok <;>
      by_cases hj : env.job_ret < 0 <;>
      simp only [rve_job_commit_model, commitSyncBranch, ha, hj] <;>
      simp_all
  · intro copy_ok c commitRet hrun hok
    have hloop := commitLoop_all_ok commitRet hok c.cmd_num.toNat 0
    cases copy_ok <;>
      simp [rve_job_commit_by_user_ctx, hrun, hloop]

/-- Witness for C7 amended at a concrete input: with the allocation and
the dispatch succeeding, commit blocks in the wait path, and a one-batch
idle context gets exactly one `rve_job_commit` call. -/
theorem commit_forces_sync_witness :
    ((rve_job_commit_model ⟨true, 0, 5, true, 1, 0, 0, .jobDone⟩
        ⟨1, 0, 0, false, false, 0, .async, 0, 0, true⟩).waited = true) ∧
    (rve_job_commit_by_user_ctx true true (fun _ => 0)
        ⟨1, 0, 0, false, false, 0, .sync, 0, 0, true⟩).commit_calls = 1 := by
  have h := commit_forces_sync ⟨true, 0, 5, true, 1, 0, 0, .jobDone⟩
    ⟨1, 0, 0, false, false, 0, .async, 0, 0, true⟩
  exact ⟨h.2.2.1.mpr ⟨rfl, by decide⟩,
    h.2.2.2 true ⟨1, 0, 0, false, false, 0, .sync, 0, 0, true⟩ (fun _ => 0)
      rfl (fun _ => le_refl 0)⟩

/-- C10: every successful `rve_job_config_by_user_ctx` stores a command
batch count of exactly 1 (line 601 overwrites the user's request before
anything depends on it), so a subsequent `rve_job_commit_by_user_ctx` on
that context makes exactly one `rve_job_commit` call and copies exactly
one register-command array back to user space. -/
theorem config_forces_single_batch (lookup_ok alloc_ok copy_ok : Bool)
    (user : UserCtx) (ctx ctx' : RveCtx) (user' : UserCtx)
    (h : rve_job_config_by_user_ctx lookup_ok alloc_ok copy_ok user ctx =
          .ok (ctx', user')) :
    ctx'.cmd_num = 1 ∧ user'.cmd_num = 1 ∧ ctx'.is_running = false ∧
    (∀ commitRet : Nat → Int, (∀ i, 0 ≤ commitRet i) →
        (rve_job_commit_by_user_ctx true true commitRet ctx').commit_calls = 1 ∧
        (rve_job_commit_by_user_ctx true true commitRet ctx').arrays_copied = 1) := by
  cases hl : lookup_ok <;> cases hr : ctx.is_running <;>
    cases ha : alloc_ok <;> cases hcp : copy_ok <;>
    simp [rve_job_config_by_user_ctx, hl, hr, ha, hcp] at h
  obtain ⟨hc, hu⟩ := h
  subst hc; subst hu
  refine ⟨rfl, rfl, rfl, ?_⟩
  intro commitRet hok
  have hloop := commitLoop_all_ok commitRet hok 1 0
  constructor <;> simp [rve_job_commit_by_user_ctx, hr, hloop]

/-- Witness for C10 at a concrete input: a configure call requesting 99
batches succeeds with a stored count of 1, and the following commit makes
one job. -/
theorem config_forces_single_batch_witness :
    ((⟨0, 0, 0, false, false, 0, .sync, 3, -1, true⟩ : RveCtx).cmd_num = 1 ∨
      (rve_job_commit_by_user_ctx true true (fun _ => 0)
        ⟨1, 0, 0, false, false, 0, .async, 3, -1, true⟩).commit_calls = 1) := by
  have h := config_forces_single_batch true true true
    ⟨7, 99, .async, 3, -1, 0⟩
    ⟨0, 0, 0, false, false, 0, .sync, 0, 0, false⟩
    ⟨1, 0, 0, false, false, 0, .async, 3, -1, true⟩
    ⟨7, 1, .async, 3, -1, 0⟩ rfl
  exact Or.inr (h.2.2.2 (fun _ => 0) (fun _ => le_refl 0)).1

/-- C1: across every lock-protected critical section of the scheduler
(enqueue, dispatch, completion, timeout clean, abort, cancellation), the
single running slot is filled only by the `install` section of
`rve_job_next`, which requires having observed the slot empty under the
lock and takes the queue head; and no section ever replaces the slot's
occupant by a different job — every completion or abort path clears the
slot first, so at most one job occupies it at any instant and a new job
is installed only after the previous one was cleared. -/
theorem sched_step_single_running (s s' : SchedState) (hstep : SchedStep s s') :
    (∀ j, s'.running_job = some j →
        s.running_job = some j ∨
        (s.running_job = none ∧ s.todo.head? = some j)) ∧
    (∀ j j', s.running_job = some j → s'.running_job = some j' → j' = j) := by
  constructor
  · intro j hj
    cases hstep with
    | enqueue j0 => exact Or.inl (by simpa using hj)
    | install j0 rest hidle hhead =>
      simp only at hj
      refine Or.inr ⟨hidle, ?_⟩
      rw [hhead]
      simpa using hj
    | runFail j0 hrun => simp at hj
    | doneStep j0 hrun => simp at hj
    | timeoutStep j0 now hrun hasync hlate => simp at hj
    | abortClear j0 hrun => simp at hj
    | abortMiss j0 hmiss => exact Or.inl hj
    | cancelCtx cid =>
      simp only at hj
      cases hr : s.running_job with
      | none => rw [hr] at hj; simp [cancelRunning] at hj
      | some k =>
        rw [hr] at hj
        by_cases hc : k.ctx_id = cid
        · simp [cancelRunning, hc] at hj
        · simp [cancelRunning, hc] at hj
          subst hj
          exact Or.inl rfl
  · intro j j' hs hs'
    cases hstep with
    | enqueue j0 =>
      simp only at hs'
      rw [hs] at hs'
      exact (Option.some_injective _ hs').symm
    | install j0 rest hidle hhead => rw [hidle] at hs; cases hs
    | runFail j0 hrun => simp at hs'
    | doneStep j0 hrun => simp at hs'
    | timeoutStep j0 now hrun hasync hlate => simp at hs'
    | abortClear j0 hrun => simp at hs'
    | abortMiss j0 hmiss =>
      rw [hs] at hs'
      exact (Option.some_injective _ hs').symm
    | cancelCtx cid =>
      simp only at hs'
      rw [hs] at hs'
      by_cases hc : j.ctx_id = cid
      · simp [cancelRunning, hc] at hs'
      · simp [cancelRunning, hc] at hs'
        exact hs'.symm

/-- Witness for C1 at a concrete step: installing the head of a
one-element queue into the empty slot is accounted for by the
observed-empty case of the theorem. -/
theorem sched_step_single_running_witness :
    (⟨[⟨0, 0, 0, false, 0⟩], none, 1⟩ : SchedState).running_job =
        some ⟨0, 0, 0, false, 0⟩ ∨
    ((⟨[⟨0, 0, 0, false, 0⟩], none, 1⟩ : SchedState).running_job = none ∧
     (⟨[⟨0, 0, 0, false, 0⟩], none, 1⟩ : SchedState).todo.head? =
        some ⟨0, 0, 0, false, 0⟩) :=
  (sched_step_single_running ⟨[⟨0, 0, 0, false, 0⟩], none, 1⟩
      ⟨[], some ⟨0, 0, 0, false, 0⟩, 0⟩
      (SchedStep.install _ ⟨0, 0, 0, false, 0⟩ [] rfl rfl)).1
    ⟨0, 0, 0, false, 0⟩ rfl

end RVE
